import Mathlib

/-!
Verification of the Graphviz DOT renderer in `src/bin/create-dotfiles.ts`
(repository `arbon/aws-stacks`).

The script reads a CDK `manifest.json` index, resolves template artifact
paths, and renders each CloudFormation template to a DOT digraph.  The
embedding below mirrors the TypeScript runtime behaviour:

* JavaScript object iteration (`for (const k in obj)`) preserves insertion
  order for string keys, so a `Record` is embedded as an association list.
* A field the JSON may lack (`Properties`, `DependsOn`, `properties`,
  `properties.file`) is embedded as an `Option`; the TypeScript interface
  annotations perform no runtime validation because the decoded value is
  produced by a bare `JSON.parse` cast.
* A thrown exception is embedded as `none` (or an explicit error value):
  `Object.keys(undefined)` raises `TypeError`, and `forEach` aborts when
  its callback throws.
-/

/-- A CloudFormation resource as consumed by `createDotFile`.
Mirrors the `CloudFormationResource` interface: `Type` (renamed `type`,
`Type` being reserved in Lean), optional `DependsOn`, and `Properties`.
`Properties` is a JSON object; the renderer only reads its keys, and the
(opaque) values are embedded as strings.  `Properties` is declared
required by the interface, but `JSON.parse` performs no validation, so a
template lacking it still reaches the renderer: absence is `none`.
`Metadata` is never read by the script and is omitted. -/
structure CloudFormationResource where
  type : String
  DependsOn : Option (List String)
  Properties : Option (List (String × String))
  deriving DecidableEq

/-- A CloudFormation template as consumed by `createDotFile`: the ordered
`Resources` record, embedded as an association list (JavaScript `for..in`
iterates string keys in insertion order).  The `Metadata` and `Outputs`
fields of the `CloudFormationTemplate` interface are never read by the
script and are omitted. -/
structure CloudFormationTemplate where
  Resources : List (String × CloudFormationResource)
  deriving DecidableEq

/-- The fixed text that initialises the `dotFile` accumulator: the
`digraph` opener and the constant node-styling statement (note: no
trailing newline, exactly as in the source). -/
def dotHeader : String :=
  "digraph Resources \x7b\nnode [shape=box fontname=\"Avenir, Helvetica\" fontsize=10];"

/-- The text one iteration of the resource loop of `createDotFile` appends
to the `dotFile` accumulator, for the resource named `resourceName`:

* `some ""` embeds the `continue` taken when the label (initially
  `resource.Type`) equals `AWS::CDK::Metadata`;
* `none` embeds the `TypeError` thrown by
  `Object.keys(resource.Properties)` when `Properties` is absent;
* otherwise the node line `  "name" [label="Type\nkey1\nkey2..."];` is
  appended, followed by one edge line `  "name" -> "dep";` per entry of
  `DependsOn` (the `Array.isArray` guard holds whenever the field is
  present in this typed embedding). -/
def resourceDot (resourceName : String) (resource : CloudFormationResource) : Option String :=
  if resource.type = "AWS::CDK::Metadata" then some "" else
  match resource.Properties with
  | none => none
  | some props =>
    let label := props.foldl (fun l kv => l ++ "\n" ++ kv.1) resource.type
    let nodeLine := "  \"" ++ resourceName ++ "\" [label=\"" ++ label ++ "\"];\n"
    let edgeLines :=
      match resource.DependsOn with
      | some deps =>
        deps.foldl (fun s dep => s ++ "  \"" ++ resourceName ++ "\" -> \"" ++ dep ++ "\";\n") ""
      | none => ""
    some (nodeLine ++ edgeLines)

/-- `createDotFile` from `src/bin/create-dotfiles.ts`: fold the resource
loop over the ordered `Resources` record, starting from the fixed header
and closing with `}\n`.  `none` embeds an uncaught exception escaping the
function. -/
def createDotFile (template : CloudFormationTemplate) : Option String :=
  (template.Resources.foldlM
      (fun dotFile p => (resourceDot p.1 p.2).map (fun s => dotFile ++ s))
      dotHeader).map (fun s => s ++ "\x7d\n")

/-- A single statement of the rendered DOT body: a node declaration
(quoted name plus label) or an edge declaration (quoted source and
target). -/
inductive DotStmt where
  | node (name : String) (label : String)
  | edge (src : String) (tgt : String)
  deriving DecidableEq

/-- The exact text the script emits for one DOT statement. -/
def renderStmt : DotStmt → String
  | .node name label => "  \"" ++ name ++ "\" [label=\"" ++ label ++ "\"];\n"
  | .edge src tgt => "  \"" ++ src ++ "\" -> \"" ++ tgt ++ "\";\n"

/-- Concatenation of the rendered statements. -/
def renderStmts : List DotStmt → String
  | [] => ""
  | s :: rest => renderStmt s ++ renderStmts rest

/-- The statements one iteration of the resource loop emits: `some []`
for the `AWS::CDK::Metadata` skip, `none` for the missing-`Properties`
`TypeError`, and otherwise the node declaration followed by one edge per
`DependsOn` entry. -/
def resourceStmts (resourceName : String) (resource : CloudFormationResource) :
    Option (List DotStmt) :=
  if resource.type = "AWS::CDK::Metadata" then some [] else
  match resource.Properties with
  | none => none
  | some props =>
    some (DotStmt.node resourceName (props.foldl (fun l kv => l ++ "\n" ++ kv.1) resource.type)
      :: (resource.DependsOn.getD []).map (fun dep => DotStmt.edge resourceName dep))

/-- The statement sequence of the DOT body emitted for a resource list,
`none` when some iteration throws. -/
def dotStmtsList : List (String × CloudFormationResource) → Option (List DotStmt)
  | [] => some []
  | p :: rest =>
    match resourceStmts p.1 p.2, dotStmtsList rest with
    | some ss, some rest' => some (ss ++ rest')
    | _, _ => none

/-- The statement sequence of the DOT body of a template. -/
def dotStmts (template : CloudFormationTemplate) : Option (List DotStmt) :=
  dotStmtsList template.Resources

/-- An uncaught exception escaping the batch loop of `createDotFiles`. -/
inductive BatchError where
  | decodeError (artifactPath : String)
  | renderError (artifactPath : String)
  | writeError (outputPath : String)
  deriving DecidableEq

/-- `createDotFiles` from `src/bin/create-dotfiles.ts`:
`artifacts.forEach(p => writeFileSync(p + ".dot", createDotFile(JSON.parse(readFileSync(p)))))`.

Filesystem effects are embedded by two oracles: `decode artifactPath` is
the combined result of `fs.readFileSync` + `JSON.parse` on the artifact
(`none` embeds a read or parse throw; the `CloudFormationTemplate` cast
performs no validation), and `writeOk outputPath` tells whether
`fs.writeFileSync` on that path succeeds.  The result's first component
lists the files fully written, in order, as (path, content) pairs; the
second is the exception propagating out of the `forEach` (`none` when the
batch completes).  The body has no try/catch, so the first throw aborts
the loop: nothing is written for the failing artifact and the remaining
artifacts are not processed. -/
def createDotFiles (decode : String → Option CloudFormationTemplate)
    (writeOk : String → Bool) :
    List String → List (String × String) × Option BatchError
  | [] => ([], none)
  | artifactPath :: rest =>
    match decode artifactPath with
    | none => ([], some (.decodeError artifactPath))
    | some template =>
      match createDotFile template with
      | none => ([], some (.renderError artifactPath))
      | some doc =>
        if writeOk (artifactPath ++ ".dot") then
          let result := createDotFiles decode writeOk rest
          ((artifactPath ++ ".dot", doc) :: result.1, result.2)
        else ([], some (.writeError (artifactPath ++ ".dot")))

/-- Properties of an artifact entry of `manifest.json`. -/
structure ArtifactProperties where
  file : Option String
  deriving DecidableEq

/-- An artifact entry of `manifest.json` as read by
`getArtifactsFromManifest`: its `type` tag and optional `properties`. -/
structure ManifestArtifact where
  type : String
  properties : Option ArtifactProperties
  deriving DecidableEq

/-- The `manifest.json` index: its `artifacts` record, embedded as an
ordered association list. -/
structure IndexManifest where
  artifacts : List (String × ManifestArtifact)
  deriving DecidableEq

/-- `path.join('.', 'cdk.out')`, which normalises to `cdk.out`. -/
def cdkDir : String := "cdk.out"

/-- Character-list worker for `jsReplaceAll`: scan left to right; at the
leftmost occurrence of `pattern`, emit `replacement` and resume after the
occurrence (non-overlapping), otherwise copy one character.  Each step
consumes at least one character, so fuel equal to the input length
suffices. -/
def replaceFuel (pattern replacement : List Char) : Nat → List Char → List Char
  | _, [] => []
  | 0, s => s
  | Nat.succ fuel, c :: rest =>
    if pattern.isPrefixOf (c :: rest) then
      replacement ++ replaceFuel pattern replacement fuel ((c :: rest).drop pattern.length)
    else
      c :: replaceFuel pattern replacement fuel rest

/-- JavaScript `String.prototype.replace` with a global literal pattern
(`file.replace(/assets/g, 'template')`): every non-overlapping occurrence
of `pattern`, found left to right, is replaced by `replacement` (the
replacement text contains no `$` patterns in this program). -/
def jsReplaceAll (s pattern replacement : String) : String :=
  ⟨replaceFuel pattern.data replacement.data s.data.length s.data⟩

/-- `getArtifactsFromManifest` from `src/bin/create-dotfiles.ts`.  The
argument is the result of `fs.readFileSync` + `JSON.parse` on the index
file (`none` embeds a throw, landing in the catch block).  The boolean
result component records whether `console.error` was invoked (the catch
branch).  The loop keeps artifacts with
`artifact.type === 'cdk:asset-manifest' && artifact.properties &&
artifact.properties.file`; note that in JavaScript an empty string is
falsy, so `properties.file === ""` fails the condition.  Each kept
artifact maps to `path.join(cdkDir, file.replace(/assets/g, 'template'))`;
`path.join` on these relative segments is embedded as `/`-concatenation,
and `String.replace` replaces every occurrence, matching the `g` flag. -/
def getArtifactsFromManifest (parsed : Option IndexManifest) : List String × Bool :=
  match parsed with
  | none => ([], true)
  | some manifest =>
    (manifest.artifacts.filterMap (fun p =>
      if p.2.type = "cdk:asset-manifest" then
        match p.2.properties with
        | none => none
        | some props =>
          match props.file with
          | none => none
          | some f =>
            if f = "" then none
            else some (cdkDir ++ "/" ++ jsReplaceAll f "assets" "template")
      else none), false)

/-- Erase every property value of every resource of a template, keeping
names, type tags, property keys and dependency lists.  Two templates with
equal erasures differ only in property values. -/
def erasePropertyValues (template : CloudFormationTemplate) : CloudFormationTemplate :=
  ⟨template.Resources.map (fun p =>
    (p.1, ⟨p.2.type, p.2.DependsOn,
      p.2.Properties.map (fun props => props.map (fun kv => (kv.1, "")))⟩))⟩

theorem renderStmts_append (xs ys : List DotStmt) :
    renderStmts (xs ++ ys) = renderStmts xs ++ renderStmts ys := by
  induction xs with
  | nil => simp [renderStmts]
  | cons x xs ih => simp [renderStmts, ih, String.append_assoc]

theorem edge_foldl (name : String) (deps : List String) (init : String) :
    deps.foldl (fun s dep => s ++ "  \"" ++ name ++ "\" -> \"" ++ dep ++ "\";\n") init
      = init ++ renderStmts (deps.map (fun dep => DotStmt.edge name dep)) := by
  induction deps generalizing init with
  | nil => simp [renderStmts]
  | cons d ds ih =>
    simp only [List.foldl_cons, List.map_cons, renderStmts, renderStmt]
    rw [ih]
    simp [String.append_assoc]

theorem resourceDot_eq_resourceStmts (name : String) (r : CloudFormationResource) :
    resourceDot name r = (resourceStmts name r).map renderStmts := by
  unfold resourceDot resourceStmts
  by_cases hm : r.type = "AWS::CDK::Metadata"
  · simp [hm, renderStmts]
  · simp only [hm, if_false]
    cases hp : r.Properties with
    | none => simp
    | some props =>
      simp only [Option.map_some']
      cases hd : r.DependsOn with
      | none => simp [renderStmts, renderStmt]
      | some deps =>
        simp only [Option.getD_some, renderStmts, renderStmt]
        rw [edge_foldl]
        simp

theorem foldlM_resourceDot_eq (l : List (String × CloudFormationResource)) (a : String) :
    l.foldlM (fun dotFile p => (resourceDot p.1 p.2).map (fun s => dotFile ++ s)) a
      = (dotStmtsList l).map (fun ss => a ++ renderStmts ss) := by
  induction l generalizing a with
  | nil => simp [dotStmtsList, renderStmts]
  | cons p rest ih =>
    simp only [List.foldlM_cons]
    cases hs : resourceStmts p.1 p.2 with
    | none =>
      have hd : resourceDot p.1 p.2 = none := by
        rw [resourceDot_eq_resourceStmts, hs]; rfl
      simp [dotStmtsList, hs, hd]
    | some ss =>
      have hd : resourceDot p.1 p.2 = some (renderStmts ss) := by
        rw [resourceDot_eq_resourceStmts, hs]; rfl
      rw [hd]
      have hred : ((some (renderStmts ss)).map (fun s => a ++ s) >>= fun b =>
          List.foldlM (fun dotFile p => (resourceDot p.1 p.2).map (fun s => dotFile ++ s)) b rest)
          = List.foldlM (fun dotFile p => (resourceDot p.1 p.2).map (fun s => dotFile ++ s))
              (a ++ renderStmts ss) rest := rfl
      rw [hred, ih]
      cases hrest : dotStmtsList rest with
      | none => simp [dotStmtsList, hs, hrest]
      | some rest' => simp [dotStmtsList, hs, hrest, renderStmts_append, String.append_assoc]

/-- Selects node declarations. -/
def DotStmt.isNode : DotStmt → Bool
  | .node _ _ => true
  | .edge _ _ => false

/-- Selects edge declarations. -/
def DotStmt.isEdge : DotStmt → Bool
  | .node _ _ => false
  | .edge _ _ => true

/-- The declared name of a node statement, `none` on an edge. -/
def nodeName? : DotStmt → Option String
  | .node name _ => some name
  | .edge _ _ => none

/-- Whether a resource entry carries the `AWS::CDK::Metadata` sentinel
type tag (such resources are skipped by the renderer). -/
def isMetadataEntry (p : String × CloudFormationResource) : Bool :=
  p.2.type == "AWS::CDK::Metadata"

theorem filter_isEdge_map_edge (n : String) (deps : List String) :
    (deps.map (fun dep => DotStmt.edge n dep)).filter DotStmt.isEdge
      = deps.map (fun dep => DotStmt.edge n dep) := by
  induction deps with
  | nil => rfl
  | cons d ds ih => simp [DotStmt.isEdge, ih]

theorem filterMap_nodeName_map_edge (n : String) (deps : List String) :
    (deps.map (fun dep => DotStmt.edge n dep)).filterMap nodeName? = [] := by
  induction deps with
  | nil => rfl
  | cons d ds ih => simp [nodeName?, ih]

/-- A batch aborts at the first iteration whose one resource throws:
`dotStmtsList` is `none` as soon as some entry's `resourceStmts` is. -/
theorem dotStmtsList_none_of_mem (l : List (String × CloudFormationResource))
    (p : String × CloudFormationResource) (hmem : p ∈ l)
    (hnone : resourceStmts p.1 p.2 = none) : dotStmtsList l = none := by
  induction l with
  | nil => cases hmem
  | cons q rest ih =>
    rcases List.mem_cons.mp hmem with h | h
    · subst h
      simp [dotStmtsList, hnone]
    · cases hq : resourceStmts q.1 q.2 <;> simp [dotStmtsList, hq, ih h]

/-- Edge declarations of the body: one per `DependsOn` entry of each
non-metadata resource, directed resource → dependency, grouped per
resource in manifest order, with the dependency name verbatim. -/
theorem edges_of_dotStmtsList (l : List (String × CloudFormationResource))
    (ss : List DotStmt) (h : dotStmtsList l = some ss) :
    ss.filter DotStmt.isEdge
      = ((l.filter (fun p => !isMetadataEntry p)).map
          (fun p => (p.2.DependsOn.getD []).map (fun dep => DotStmt.edge p.1 dep))).flatten := by
  induction l generalizing ss with
  | nil =>
    simp only [dotStmtsList, Option.some.injEq] at h
    subst h
    rfl
  | cons p rest ih =>
    cases hs : resourceStmts p.1 p.2 with
    | none => simp [dotStmtsList, hs] at h
    | some ss₀ =>
      cases hrest : dotStmtsList rest with
      | none => simp [dotStmtsList, hs, hrest] at h
      | some rest' =>
        simp only [dotStmtsList, hs, hrest, Option.some.injEq] at h
        subst h
        rw [List.filter_append, ih rest' hrest]
        unfold resourceStmts at hs
        by_cases hm : p.2.type = "AWS::CDK::Metadata"
        · simp only [hm, if_true, Option.some.injEq] at hs
          subst hs
          have hb : ¬ ((!isMetadataEntry p) = true) := by simp [isMetadataEntry, hm]
          rw [@List.filter_cons_of_neg _ (fun q => !isMetadataEntry q) p rest hb]
          rfl
        · simp only [hm, if_false] at hs
          cases hp : p.2.Properties with
          | none => rw [hp] at hs; cases hs
          | some props =>
            rw [hp] at hs
            injection hs with hs
            subst hs
            have hb : (!isMetadataEntry p) = true := by simp [isMetadataEntry, hm]
            rw [@List.filter_cons_of_pos _ (fun q => !isMetadataEntry q) p rest hb,
              List.map_cons, List.flatten_cons]
            rw [List.filter_cons_of_neg (by simp [DotStmt.isEdge]),
              filter_isEdge_map_edge]

/-- Node declarations of the body: their names are exactly the names of
the non-metadata resources, in manifest order. -/
theorem nodes_of_dotStmtsList (l : List (String × CloudFormationResource))
    (ss : List DotStmt) (h : dotStmtsList l = some ss) :
    ss.filterMap nodeName?
      = (l.filter (fun p => !isMetadataEntry p)).map Prod.fst := by
  induction l generalizing ss with
  | nil =>
    simp only [dotStmtsList, Option.some.injEq] at h
    subst h
    rfl
  | cons p rest ih =>
    cases hs : resourceStmts p.1 p.2 with
    | none => simp [dotStmtsList, hs] at h
    | some ss₀ =>
      cases hrest : dotStmtsList rest with
      | none => simp [dotStmtsList, hs, hrest] at h
      | some rest' =>
        simp only [dotStmtsList, hs, hrest, Option.some.injEq] at h
        subst h
        rw [List.filterMap_append, ih rest' hrest]
        unfold resourceStmts at hs
        by_cases hm : p.2.type = "AWS::CDK::Metadata"
        · simp only [hm, if_true, Option.some.injEq] at hs
          subst hs
          have hb : ¬ ((!isMetadataEntry p) = true) := by simp [isMetadataEntry, hm]
          rw [@List.filter_cons_of_neg _ (fun q => !isMetadataEntry q) p rest hb]
          rfl
        · simp only [hm, if_false] at hs
          cases hp : p.2.Properties with
          | none => rw [hp] at hs; cases hs
          | some props =>
            rw [hp] at hs
            injection hs with hs
            subst hs
            have hb : (!isMetadataEntry p) = true := by simp [isMetadataEntry, hm]
            rw [@List.filter_cons_of_pos _ (fun q => !isMetadataEntry q) p rest hb,
              List.map_cons, List.filterMap_cons]
            simp only [nodeName?, filterMap_nodeName_map_edge, List.nil_append]
            rfl

theorem length_filter_isNode (ss : List DotStmt) :
    (ss.filter DotStmt.isNode).length = (ss.filterMap nodeName?).length := by
  induction ss with
  | nil => rfl
  | cons s rest ih => cases s <;> simp [DotStmt.isNode, nodeName?, ih]

/-- Every node declaration of the body comes from a non-metadata resource
of the list: its name is the resource's key, and its label is the type
tag followed by one line per property key. -/
theorem node_mem_of_dotStmtsList (l : List (String × CloudFormationResource))
    (ss : List DotStmt) (h : dotStmtsList l = some ss)
    (name label : String) (hmem : DotStmt.node name label ∈ ss) :
    ∃ r props, (name, r) ∈ l ∧ r.type ≠ "AWS::CDK::Metadata" ∧ r.Properties = some props ∧
      label = props.foldl (fun s kv => s ++ "\n" ++ kv.1) r.type := by
  induction l generalizing ss with
  | nil =>
    simp only [dotStmtsList, Option.some.injEq] at h
    subst h
    cases hmem
  | cons p rest ih =>
    cases hs : resourceStmts p.1 p.2 with
    | none => simp [dotStmtsList, hs] at h
    | some ss₀ =>
      cases hrest : dotStmtsList rest with
      | none => simp [dotStmtsList, hs, hrest] at h
      | some rest' =>
        simp only [dotStmtsList, hs, hrest, Option.some.injEq] at h
        subst h
        rcases List.mem_append.mp hmem with hin | hin
        · unfold resourceStmts at hs
          by_cases hm : p.2.type = "AWS::CDK::Metadata"
          · simp only [hm, if_true, Option.some.injEq] at hs
            subst hs
            cases hin
          · simp only [hm, if_false] at hs
            cases hp : p.2.Properties with
            | none => rw [hp] at hs; cases hs
            | some props =>
              rw [hp] at hs
              injection hs with hs
              subst hs
              rcases List.mem_cons.mp hin with he | he
              · injection he with h1 h2
                exact ⟨p.2, props, by rw [h1]; exact List.mem_cons_self _ _, hm, hp, h2⟩
              · rcases List.mem_map.mp he with ⟨dep, _, hdep⟩
                cases hdep
        · rcases ih rest' hrest hin with ⟨r, props, hmem', hty, hp, hl⟩
          exact ⟨r, props, List.mem_cons_of_mem _ hmem', hty, hp, hl⟩

/-- In a record (keys unique, as for a JavaScript object), the key
determines the entry. -/
theorem key_determines_entry (l : List (String × CloudFormationResource))
    (hnd : (l.map Prod.fst).Nodup) (n : String) (r r' : CloudFormationResource)
    (h1 : (n, r) ∈ l) (h2 : (n, r') ∈ l) : r = r' := by
  induction l with
  | nil => cases h1
  | cons q rest ih =>
    simp only [List.map_cons, List.nodup_cons] at hnd
    rcases List.mem_cons.mp h1 with e1 | m1
    · rcases List.mem_cons.mp h2 with e2 | m2
      · rw [← e1] at e2
        exact (Prod.mk.injEq _ _ _ _ ▸ e2).2.symm
      · exfalso
        apply hnd.1
        rw [← e1]
        exact List.mem_map.mpr ⟨(n, r'), m2, rfl⟩
    · rcases List.mem_cons.mp h2 with e2 | m2
      · exfalso
        apply hnd.1
        rw [← e2]
        exact List.mem_map.mpr ⟨(n, r), m1, rfl⟩
      · exact ih hnd.2 m1 m2

theorem resourceDot_erase (n : String) (r : CloudFormationResource) :
    resourceDot n ⟨r.type, r.DependsOn,
        r.Properties.map (fun props => props.map (fun kv => (kv.1, "")))⟩
      = resourceDot n r := by
  unfold resourceDot
  cases hp : r.Properties with
  | none => rfl
  | some props =>
    simp only [Option.map_some']
    rw [List.foldl_map]

theorem foldlM_resourceDot_erase (l : List (String × CloudFormationResource)) (a : String) :
    (l.map (fun p => (p.1, (⟨p.2.type, p.2.DependsOn,
          p.2.Properties.map (fun props => props.map (fun kv => (kv.1, "")))⟩ :
        CloudFormationResource)))).foldlM
        (fun dotFile p => (resourceDot p.1 p.2).map (fun s => dotFile ++ s)) a
      = l.foldlM (fun dotFile p => (resourceDot p.1 p.2).map (fun s => dotFile ++ s)) a := by
  induction l generalizing a with
  | nil => rfl
  | cons p rest ih =>
    rcases p with ⟨n, r⟩
    simp only [List.map_cons, List.foldlM_cons]
    rw [resourceDot_erase]
    cases resourceDot n r with
    | none => rfl
    | some s => exact ih (a ++ s)

/-- Property values do not reach the output: erasing them leaves
`createDotFile` unchanged. -/
theorem createDotFile_erase (t : CloudFormationTemplate) :
    createDotFile (erasePropertyValues t) = createDotFile t := by
  have hres : (erasePropertyValues t).Resources
      = t.Resources.map (fun p => (p.1, (⟨p.2.type, p.2.DependsOn,
          p.2.Properties.map (fun props => props.map (fun kv => (kv.1, "")))⟩ :
        CloudFormationResource))) := rfl
  unfold createDotFile
  rw [hres, foldlM_resourceDot_erase]

/-- One unfolding step of the batch loop. -/
theorem createDotFiles_cons (decode : String → Option CloudFormationTemplate)
    (writeOk : String → Bool) (a : String) (rest : List String) :
    createDotFiles decode writeOk (a :: rest)
      = match decode a with
        | none => ([], some (.decodeError a))
        | some template =>
          match createDotFile template with
          | none => ([], some (.renderError a))
          | some doc =>
            if writeOk (a ++ ".dot") then
              ((a ++ ".dot", doc) :: (createDotFiles decode writeOk rest).1,
                (createDotFiles decode writeOk rest).2)
            else ([], some (.writeError (a ++ ".dot"))) := rfl

/-- Appending artifacts to a batch that completes: the batch processes
the prefix first, then the suffix, concatenating the files written. -/
theorem createDotFiles_append (decode : String → Option CloudFormationTemplate)
    (writeOk : String → Bool) (l₁ l₂ : List String) (ws : List (String × String))
    (h : createDotFiles decode writeOk l₁ = (ws, none)) :
    createDotFiles decode writeOk (l₁ ++ l₂)
      = (ws ++ (createDotFiles decode writeOk l₂).1, (createDotFiles decode writeOk l₂).2) := by
  induction l₁ generalizing ws with
  | nil =>
    simp only [createDotFiles, Prod.mk.injEq] at h
    rw [← h.1]
    simp
  | cons a rest ih =>
    rw [List.cons_append]
    cases hd : decode a with
    | none =>
      rw [createDotFiles_cons, hd] at h
      exact absurd h (by simp)
    | some template =>
      cases hc : createDotFile template with
      | none =>
        simp only [createDotFiles_cons, hd, hc] at h
        exact absurd h (by simp)
      | some doc =>
        rcases hr : createDotFiles decode writeOk rest with ⟨ws', e'⟩
        simp only [createDotFiles_cons, hd, hc, hr] at h
        by_cases hw : writeOk (a ++ ".dot") = true
        · rw [if_pos hw] at h
          injection h with h1 h2
          subst h2
          subst h1
          simp only [createDotFiles_cons, hd, hc]
          rw [if_pos hw, ih ws' hr]
          simp
        · rw [if_neg hw] at h
          exact absurd h (by simp)

/-- The body decomposes into one block per resource, in manifest order:
each block is what that resource's loop iteration emits. -/
theorem dotStmtsList_blocks (l : List (String × CloudFormationResource))
    (ss : List DotStmt) (h : dotStmtsList l = some ss) :
    ∃ blocks : List (List DotStmt), ss = blocks.flatten ∧
      List.Forall₂ (fun p bs => resourceStmts p.1 p.2 = some bs) l blocks := by
  induction l generalizing ss with
  | nil =>
    simp only [dotStmtsList, Option.some.injEq] at h
    subst h
    exact ⟨[], rfl, List.Forall₂.nil⟩
  | cons p rest ih =>
    cases hs : resourceStmts p.1 p.2 with
    | none => simp [dotStmtsList, hs] at h
    | some ss₀ =>
      cases hrest : dotStmtsList rest with
      | none => simp [dotStmtsList, hs, hrest] at h
      | some rest' =>
        simp only [dotStmtsList, hs, hrest, Option.some.injEq] at h
        subst h
        rcases ih rest' hrest with ⟨blocks, hflat, hfa⟩
        exact ⟨ss₀ :: blocks, by rw [List.flatten_cons, hflat], List.Forall₂.cons hs hfa⟩

/-- The block a single resource emits is empty (metadata skip) or its
node declaration followed by exactly its `DependsOn` edges. -/
theorem resourceStmts_shape (name : String) (r : CloudFormationResource)
    (bs : List DotStmt) (h : resourceStmts name r = some bs) :
    bs = [] ∨ ∃ label, bs = DotStmt.node name label
      :: (r.DependsOn.getD []).map (fun dep => DotStmt.edge name dep) := by
  unfold resourceStmts at h
  by_cases hm : r.type = "AWS::CDK::Metadata"
  · simp only [hm, if_true, Option.some.injEq] at h
    exact Or.inl h.symm
  · simp only [hm, if_false] at h
    cases hp : r.Properties with
    | none => rw [hp] at h; cases h
    | some props =>
      rw [hp] at h
      injection h with h
      exact Or.inr ⟨_, h.symm⟩

theorem length_filter_not_meta (l : List (String × CloudFormationResource)) :
    (l.filter (fun p => !isMetadataEntry p)).length
      = l.length - (l.filter (fun p => isMetadataEntry p)).length := by
  induction l with
  | nil => rfl
  | cons p rest ih =>
    have hle := List.length_filter_le (fun p => isMetadataEntry p) rest
    by_cases hm : isMetadataEntry p = true <;>
      (simp [List.filter_cons, hm, ih]; try omega)

/-- The artifact selection exactly as the claim words it (a definition
written from the claim, for comparison with the source function): keep
the artifacts of type `cdk:asset-manifest` that carry a
`properties.file` field — present, regardless of its content. -/
def claimArtifactsFromManifest (parsed : Option IndexManifest) : List String × Bool :=
  match parsed with
  | none => ([], true)
  | some manifest =>
    (manifest.artifacts.filterMap (fun p =>
      (p.2.properties.bind ArtifactProperties.file).bind (fun f =>
        if p.2.type = "cdk:asset-manifest" then
          some (cdkDir ++ "/" ++ jsReplaceAll f "assets" "template")
        else none)), false)

/-- The artifact selection with the claim amended for JavaScript
truthiness: the `properties.file` field must be present and non-empty. -/
def amendedArtifactsFromManifest (parsed : Option IndexManifest) : List String × Bool :=
  match parsed with
  | none => ([], true)
  | some manifest =>
    (manifest.artifacts.filterMap (fun p =>
      (p.2.properties.bind ArtifactProperties.file).bind (fun f =>
        if p.2.type = "cdk:asset-manifest" ∧ f ≠ "" then
          some (cdkDir ++ "/" ++ jsReplaceAll f "assets" "template")
        else none)), false)

theorem filterMap_artifact_eq (l : List (String × ManifestArtifact)) :
    (l.filterMap (fun p =>
      if p.2.type = "cdk:asset-manifest" then
        match p.2.properties with
        | none => none
        | some props =>
          match props.file with
          | none => none
          | some f =>
            if f = "" then none
            else some (cdkDir ++ "/" ++ jsReplaceAll f "assets" "template")
      else none))
      = (l.filterMap (fun p =>
        (p.2.properties.bind ArtifactProperties.file).bind (fun f =>
          if p.2.type = "cdk:asset-manifest" ∧ f ≠ "" then
            some (cdkDir ++ "/" ++ jsReplaceAll f "assets" "template")
          else none))) := by
  induction l with
  | nil => rfl
  | cons p rest ih =>
    rw [List.filterMap_cons, List.filterMap_cons, ih]
    rcases p with ⟨k, ⟨ty, props⟩⟩
    cases props with
    | none => by_cases hty : ty = "cdk:asset-manifest" <;> simp [hty]
    | some ap =>
      rcases ap with ⟨file⟩
      cases file with
      | none => by_cases hty : ty = "cdk:asset-manifest" <;> simp [hty]
      | some f =>
        by_cases hty : ty = "cdk:asset-manifest" <;> by_cases hf : f = "" <;>
          simp [hty, hf]

/-- The source function agrees with the truthiness-amended selection on
every input. -/
theorem getArtifacts_eq_amended (parsed : Option IndexManifest) :
    getArtifactsFromManifest parsed = amendedArtifactsFromManifest parsed := by
  cases parsed with
  | none => rfl
  | some m =>
    simp only [getArtifactsFromManifest, amendedArtifactsFromManifest]
    rw [filterMap_artifact_eq]

/-- Correspondence between the string the script builds and the
statement-level view: the output is the header, the rendered statement
sequence, and the closing brace. -/
theorem createDotFile_eq_stmts (template : CloudFormationTemplate) :
    createDotFile template
      = (dotStmts template).map (fun ss => dotHeader ++ renderStmts ss ++ "\x7d\n") := by
  unfold createDotFile dotStmts
  rw [foldlM_resourceDot_eq]
  cases dotStmtsList template.Resources with
  | none => rfl
  | some ss => rfl

/-- C1 counterexample: in a two-artifact batch where the first artifact's
manifest fails to decode and the second is valid, the decode failure is
not caught: the exception escapes `createDotFiles` (second component
`some`), nothing is logged by that loop, and the valid sibling artifact
is not rendered (no file is written), although processed alone it would
be.  This refutes the isolate-and-continue claim. -/
theorem C1_counterexample :
    createDotFiles (fun p => if p = "b" then some ⟨[]⟩ else none) (fun _ => true) ["a", "b"]
      = ([], some (BatchError.decodeError "a"))
    ∧ createDotFiles (fun p => if p = "b" then some ⟨[]⟩ else none) (fun _ => true) ["b"]
      = ([("b.dot", dotHeader ++ "\x7d\n")], none) := by
  constructor <;> rfl

/-- C1 (amended): a decode (read or JSON-parse) failure for an artifact's
manifest is not caught inside the batch loop; the error propagates out of
`createDotFiles`, so the failing artifact and every artifact after it are
skipped entirely, while artifacts before the failure keep their written
outputs. -/
theorem C1_theorem (decode : String → Option CloudFormationTemplate)
    (writeOk : String → Bool) (pre post : List String) (ws : List (String × String))
    (a : String) (hpre : createDotFiles decode writeOk pre = (ws, none))
    (ha : decode a = none) :
    createDotFiles decode writeOk (pre ++ a :: post) = (ws, some (BatchError.decodeError a)) := by
  rw [createDotFiles_append decode writeOk pre (a :: post) ws hpre]
  simp [createDotFiles_cons, ha]

/-- C1 witness: the amended statement at a concrete batch. -/
theorem C1_witness :
    createDotFiles (fun _ => none) (fun _ => true) ["x"]
      = ([], some (BatchError.decodeError "x")) :=
  C1_theorem (fun _ => none) (fun _ => true) [] [] [] "x" rfl rfl

/-- C2 counterexample: a manifest with one non-metadata resource whose
`Properties` mapping is absent.  Rendering raises
(`Object.keys(undefined)` throws a `TypeError`, embedded as `none`), so
the claim that rendering does not raise and yields a bare type-tag label
is false. -/
theorem C2_counterexample :
    createDotFile ⟨[("Bucket", ⟨"AWS::S3::Bucket", none, none⟩)]⟩ = none := rfl

/-- C2 (amended): for every manifest containing a resource whose
`Properties` mapping is absent and whose type tag is not the metadata
sentinel, rendering raises: the `TypeError` from
`Object.keys(resource.Properties)` escapes `createDotFile`. -/
theorem C2_theorem (t : CloudFormationTemplate) (name : String)
    (r : CloudFormationResource) (hmem : (name, r) ∈ t.Resources)
    (hty : r.type ≠ "AWS::CDK::Metadata") (hp : r.Properties = none) :
    createDotFile t = none := by
  have hs : resourceStmts name r = none := by
    unfold resourceStmts
    simp [hty, hp]
  have hnone : dotStmtsList t.Resources = none :=
    dotStmtsList_none_of_mem t.Resources (name, r) hmem hs
  rw [createDotFile_eq_stmts]
  unfold dotStmts
  rw [hnone]
  rfl

/-- C2 witness: the amended statement at a concrete manifest. -/
theorem C2_witness :
    createDotFile ⟨[("Q", ⟨"AWS::SQS::Queue", none, none⟩)]⟩ = none :=
  C2_theorem ⟨[("Q", ⟨"AWS::SQS::Queue", none, none⟩)]⟩ "Q"
    ⟨"AWS::SQS::Queue", none, none⟩ (List.mem_cons_self _ _) (by decide) rfl

/-- C3 counterexample: a manifest whose first resource has a dependency
and whose second is an ordinary resource.  The rendered body is node A,
edge A→X, node B — the edge declaration sits between the two node
declarations, so the output is not one contiguous run of node
declarations followed by one contiguous run of edge declarations. -/
theorem C3_counterexample :
    dotStmts ⟨[("A", ⟨"TypeA", some ["X"], some []⟩), ("B", ⟨"TypeB", none, some []⟩)]⟩
      = some [DotStmt.node "A" "TypeA", DotStmt.edge "A" "X", DotStmt.node "B" "TypeB"]
    ∧ createDotFile ⟨[("A", ⟨"TypeA", some ["X"], some []⟩), ("B", ⟨"TypeB", none, some []⟩)]⟩
      = some (dotHeader
          ++ "  \"A\" [label=\"TypeA\"];\n  \"A\" -> \"X\";\n  \"B\" [label=\"TypeB\"];\n\x7d\n")
    ∧ ¬ ([DotStmt.node "A" "TypeA", DotStmt.edge "A" "X", DotStmt.node "B" "TypeB"]
        = [DotStmt.node "A" "TypeA", DotStmt.edge "A" "X",
            DotStmt.node "B" "TypeB"].filter DotStmt.isNode
          ++ [DotStmt.node "A" "TypeA", DotStmt.edge "A" "X",
              DotStmt.node "B" "TypeB"].filter DotStmt.isEdge) := by
  refine ⟨?_, ?_, ?_⟩ <;> decide

/-- C3 (amended): the rendered document is the fixed header, then one
block per resource in manifest order — each block its node declaration
immediately followed by its own edge declarations (so node and edge
declarations interleave per resource rather than forming two contiguous
sequences) — then the closing marker. -/
theorem C3_theorem (t : CloudFormationTemplate) (ss : List DotStmt)
    (h : dotStmts t = some ss) :
    (∃ blocks : List (List DotStmt), ss = blocks.flatten ∧
      List.Forall₂ (fun p bs => resourceStmts p.1 p.2 = some bs) t.Resources blocks)
    ∧ (∀ name r bs, resourceStmts name r = some bs →
        bs = [] ∨ ∃ label, bs = DotStmt.node name label
          :: (r.DependsOn.getD []).map (fun dep => DotStmt.edge name dep))
    ∧ createDotFile t = some (dotHeader ++ renderStmts ss ++ "\x7d\n") := by
  refine ⟨dotStmtsList_blocks t.Resources ss h,
    fun name r bs hb => resourceStmts_shape name r bs hb, ?_⟩
  rw [createDotFile_eq_stmts, h]
  rfl

/-- C3 witness: the amended statement at a concrete manifest. -/
theorem C3_witness :
    ∃ blocks : List (List DotStmt),
      [DotStmt.node "A" "T", DotStmt.edge "A" "B"] = blocks.flatten ∧
      List.Forall₂ (fun p bs => resourceStmts p.1 p.2 = some bs)
        (⟨[("A", ⟨"T", some ["B"], some []⟩)]⟩ : CloudFormationTemplate).Resources blocks :=
  (C3_theorem ⟨[("A", ⟨"T", some ["B"], some []⟩)]⟩
    [DotStmt.node "A" "T", DotStmt.edge "A" "B"] (by decide)).1

/-- C4: the edge declarations of the output are exactly, in order, one
edge per `dependsOn` entry of each resource whose type tag is not the
metadata sentinel, directed from the resource to the dependency, with
the dependency name emitted verbatim (no referential-integrity check);
hence the edge count equals the sum of the `dependsOn` lengths over
those resources. -/
theorem C4_theorem (t : CloudFormationTemplate) (ss : List DotStmt)
    (h : dotStmts t = some ss) :
    ss.filter DotStmt.isEdge
      = ((t.Resources.filter (fun p => !isMetadataEntry p)).map
          (fun p => (p.2.DependsOn.getD []).map (fun dep => DotStmt.edge p.1 dep))).flatten
    ∧ (ss.filter DotStmt.isEdge).length
      = ((t.Resources.filter (fun p => !isMetadataEntry p)).map
          (fun p => (p.2.DependsOn.getD []).length)).sum := by
  have h1 := edges_of_dotStmtsList t.Resources ss h
  refine ⟨h1, ?_⟩
  rw [h1, List.length_flatten, List.map_map]
  simp [Function.comp_def]

/-- C4 witness: the theorem at a concrete manifest whose metadata
resource carries a (skipped) dependency and whose dangling dependency
target C names no resource. -/
theorem C4_witness :
    [DotStmt.node "A" "T", DotStmt.edge "A" "B", DotStmt.edge "A" "C"].filter DotStmt.isEdge
      = (((⟨[("A", ⟨"T", some ["B", "C"], some []⟩),
            ("M", ⟨"AWS::CDK::Metadata", some ["Z"], none⟩)]⟩ :
          CloudFormationTemplate).Resources.filter (fun p => !isMetadataEntry p)).map
          (fun p => (p.2.DependsOn.getD []).map (fun dep => DotStmt.edge p.1 dep))).flatten :=
  (C4_theorem ⟨[("A", ⟨"T", some ["B", "C"], some []⟩),
      ("M", ⟨"AWS::CDK::Metadata", some ["Z"], none⟩)]⟩
    [DotStmt.node "A" "T", DotStmt.edge "A" "B", DotStmt.edge "A" "C"] (by decide)).1

/-- C5: no node declaration is emitted for a resource carrying the
`AWS::CDK::Metadata` sentinel type (keys of a record are unique, hence
the `Nodup` hypothesis), and the node-declaration count is the resource
count minus the metadata-resource count. -/
theorem C5_theorem (t : CloudFormationTemplate) (ss : List DotStmt)
    (h : dotStmts t = some ss) :
    (ss.filter DotStmt.isNode).length
      = t.Resources.length - (t.Resources.filter (fun p => isMetadataEntry p)).length
    ∧ ((t.Resources.map Prod.fst).Nodup →
        ∀ name r, (name, r) ∈ t.Resources → r.type = "AWS::CDK::Metadata" →
          ∀ label, DotStmt.node name label ∉ ss) := by
  constructor
  · rw [length_filter_isNode, nodes_of_dotStmtsList t.Resources ss h, List.length_map,
      length_filter_not_meta]
  · intro hnd name r hmem hty label hcontra
    rcases node_mem_of_dotStmtsList t.Resources ss h name label hcontra with
      ⟨r', _, hmem', hty', _, _⟩
    have heq : r' = r := key_determines_entry t.Resources hnd name r' r hmem' hmem
    rw [heq] at hty'
    exact hty' hty

/-- C5 witness: the count part of the theorem at a concrete manifest with
one ordinary and one metadata resource. -/
theorem C5_witness :
    ([DotStmt.node "A" "T"].filter DotStmt.isNode).length
      = (⟨[("A", ⟨"T", none, some []⟩), ("M", ⟨"AWS::CDK::Metadata", none, none⟩)]⟩ :
          CloudFormationTemplate).Resources.length
        - ((⟨[("A", ⟨"T", none, some []⟩), ("M", ⟨"AWS::CDK::Metadata", none, none⟩)]⟩ :
            CloudFormationTemplate).Resources.filter (fun p => isMetadataEntry p)).length :=
  (C5_theorem ⟨[("A", ⟨"T", none, some []⟩), ("M", ⟨"AWS::CDK::Metadata", none, none⟩)]⟩
    [DotStmt.node "A" "T"] (by decide)).1

/-- C6: rendering is a pure function of the manifest — the embedding has
no hidden state, and JavaScript `for..in` iteration over string keys is
the deterministic insertion order — so identical input yields
byte-for-byte identical output; and the node declarations appear in the
manifest's iteration (insertion) order. -/
theorem C6_theorem (t₁ t₂ : CloudFormationTemplate) (h : t₁ = t₂) :
    createDotFile t₁ = createDotFile t₂
    ∧ ∀ ss, dotStmts t₁ = some ss →
        ss.filterMap nodeName?
          = (t₁.Resources.filter (fun p => !isMetadataEntry p)).map Prod.fst :=
  ⟨by rw [h], fun ss hss => nodes_of_dotStmtsList t₁.Resources ss hss⟩

/-- C6 witness: node order at a concrete two-resource manifest. -/
theorem C6_witness :
    [DotStmt.node "B" "T2", DotStmt.node "A" "T1"].filterMap nodeName?
      = ((⟨[("B", ⟨"T2", none, some []⟩), ("A", ⟨"T1", none, some []⟩)]⟩ :
          CloudFormationTemplate).Resources.filter (fun p => !isMetadataEntry p)).map
          Prod.fst :=
  (C6_theorem ⟨[("B", ⟨"T2", none, some []⟩), ("A", ⟨"T1", none, some []⟩)]⟩
      ⟨[("B", ⟨"T2", none, some []⟩), ("A", ⟨"T1", none, some []⟩)]⟩ rfl).2
    [DotStmt.node "B" "T2", DotStmt.node "A" "T1"] (by decide)

/-- C7: every successfully rendered document starts with the fixed header
(`digraph Resources` opener plus the constant node-styling statement) and
ends with the closing brace line, and the empty manifest renders to
exactly header plus closing brace with nothing in between. -/
theorem C7_theorem (t : CloudFormationTemplate) (s : String)
    (h : createDotFile t = some s) :
    (∃ mid, s = dotHeader ++ (mid ++ "\x7d\n"))
    ∧ (t.Resources = [] → s = dotHeader ++ "\x7d\n") := by
  rw [createDotFile_eq_stmts] at h
  cases hss : dotStmts t with
  | none => rw [hss] at h; cases h
  | some ss =>
    rw [hss] at h
    injection h with h
    constructor
    · refine ⟨renderStmts ss, ?_⟩
      rw [← h]
      show dotHeader ++ renderStmts ss ++ "\x7d\n" = dotHeader ++ (renderStmts ss ++ "\x7d\n")
      rw [String.append_assoc]
    · intro hempty
      have hnil : dotStmts t = some [] := by
        unfold dotStmts
        rw [hempty]
        rfl
      rw [hss] at hnil
      injection hnil with hnil
      rw [← h, hnil]
      simp [renderStmts]

/-- C7 witness: the theorem at the empty manifest. -/
theorem C7_witness :
    (∃ mid, dotHeader ++ "\x7d\n" = dotHeader ++ (mid ++ "\x7d\n"))
    ∧ ((⟨[]⟩ : CloudFormationTemplate).Resources = [] →
        dotHeader ++ "\x7d\n" = dotHeader ++ "\x7d\n") :=
  C7_theorem ⟨[]⟩ (dotHeader ++ "\x7d\n") rfl

/-- C8: property values never influence the output — two manifests with
equal value-erasures (same resource names, type tags, property key sets
and `dependsOn` lists) render identically — and every node label is the
type tag followed by one line per property key, nothing else. -/
theorem C8_theorem (t₁ t₂ : CloudFormationTemplate)
    (h : erasePropertyValues t₁ = erasePropertyValues t₂) :
    createDotFile t₁ = createDotFile t₂
    ∧ ∀ ss, dotStmts t₁ = some ss → ∀ name label, DotStmt.node name label ∈ ss →
        ∃ r props, (name, r) ∈ t₁.Resources ∧ r.type ≠ "AWS::CDK::Metadata" ∧
          r.Properties = some props ∧
          label = props.foldl (fun s kv => s ++ "\n" ++ kv.1) r.type := by
  constructor
  · rw [← createDotFile_erase t₁, ← createDotFile_erase t₂, h]
  · intro ss hss name label hmem
    exact node_mem_of_dotStmtsList t₁.Resources ss hss name label hmem

/-- C8 witness: two manifests differing only in a property value render
to the same document. -/
theorem C8_witness :
    createDotFile ⟨[("A", ⟨"T", none, some [("k", "secret1")]⟩)]⟩
      = createDotFile ⟨[("A", ⟨"T", none, some [("k", "secret2")]⟩)]⟩ :=
  (C8_theorem ⟨[("A", ⟨"T", none, some [("k", "secret1")]⟩)]⟩
    ⟨[("A", ⟨"T", none, some [("k", "secret2")]⟩)]⟩ (by decide)).1

/-- C9: a failed output write propagates out of the batch loop uncaught
(the result carries the write error and the failing artifact contributes
no file), and every file the batch does write carries a complete document
— `createDotFile`'s entire output for the decoded template — since the
document is fully composed before `writeFileSync` is called. -/
theorem C9_theorem :
    (∀ (decode : String → Option CloudFormationTemplate) (writeOk : String → Bool)
        (pre post : List String) (ws : List (String × String)) (a : String)
        (t : CloudFormationTemplate) (doc : String),
      createDotFiles decode writeOk pre = (ws, none) →
      decode a = some t → createDotFile t = some doc →
      writeOk (a ++ ".dot") = false →
      createDotFiles decode writeOk (pre ++ a :: post)
        = (ws, some (BatchError.writeError (a ++ ".dot"))))
    ∧ (∀ (decode : String → Option CloudFormationTemplate) (writeOk : String → Bool)
        (l : List String) (p d : String),
        (p, d) ∈ (createDotFiles decode writeOk l).1 →
        ∃ b t, b ∈ l ∧ p = b ++ ".dot" ∧ decode b = some t ∧ createDotFile t = some d) := by
  constructor
  · intro decode writeOk pre post ws a t doc hpre hdec hdoc hw
    rw [createDotFiles_append decode writeOk pre (a :: post) ws hpre]
    simp [createDotFiles_cons, hdec, hdoc, hw]
  · intro decode writeOk l
    induction l with
    | nil =>
      intro p d hmem
      simp [createDotFiles] at hmem
    | cons a rest ih =>
      intro p d hmem
      cases hd : decode a with
      | none => simp [createDotFiles_cons, hd] at hmem
      | some t =>
        cases hc : createDotFile t with
        | none => simp [createDotFiles_cons, hd, hc] at hmem
        | some doc =>
          by_cases hw : writeOk (a ++ ".dot") = true
          · simp only [createDotFiles_cons, hd, hc, if_pos hw] at hmem
            rcases List.mem_cons.mp hmem with he | hm
            · injection he with h1 h2
              exact ⟨a, t, List.mem_cons_self _ _, h1, hd, by rw [hc, h2]⟩
            · rcases ih p d hm with ⟨b, t', hb, hp, hdb, hcb⟩
              exact ⟨b, t', List.mem_cons_of_mem _ hb, hp, hdb, hcb⟩
          · simp [createDotFiles_cons, hd, hc, if_neg hw] at hmem

/-- C9 witness: the write-failure clause at a concrete batch. -/
theorem C9_witness :
    createDotFiles (fun _ => some ⟨[]⟩) (fun _ => false) ["a"]
      = ([], some (BatchError.writeError ("a" ++ ".dot"))) :=
  C9_theorem.1 (fun _ => some ⟨[]⟩) (fun _ => false) [] [] [] "a" ⟨[]⟩
    (dotHeader ++ "\x7d\n") rfl rfl rfl rfl

/-- C10 counterexample: an index whose sole artifact has type
`cdk:asset-manifest` and carries `properties.file`, but with the empty
string as value.  The empty string is falsy in JavaScript, so the source
function skips the artifact, while the claim as worded ("carry a
properties.file field") keeps it. -/
theorem C10_counterexample :
    getArtifactsFromManifest (some ⟨[("a", ⟨"cdk:asset-manifest", some ⟨some ""⟩⟩)]⟩)
      = ([], false)
    ∧ claimArtifactsFromManifest (some ⟨[("a", ⟨"cdk:asset-manifest", some ⟨some ""⟩⟩)]⟩)
      = (["cdk.out/"], false)
    ∧ getArtifactsFromManifest (some ⟨[("a", ⟨"cdk:asset-manifest", some ⟨some ""⟩⟩)]⟩)
      ≠ claimArtifactsFromManifest (some ⟨[("a", ⟨"cdk:asset-manifest", some ⟨some ""⟩⟩)]⟩) := by
  refine ⟨?_, ?_, ?_⟩ <;> decide

/-- C10 (amended): `getArtifactsFromManifest` returns exactly the
artifacts of the index whose type is `cdk:asset-manifest` and whose
`properties.file` field is present and non-empty (JavaScript
truthiness), each mapped to the `cdk.out`-joined path with every
occurrence of `assets` in the file name replaced by `template`; if the
index cannot be read or parsed, the error is logged and the empty list
is returned, so the batch renders nothing instead of crashing. -/
theorem C10_theorem (parsed : Option IndexManifest) :
    getArtifactsFromManifest parsed = amendedArtifactsFromManifest parsed
    ∧ getArtifactsFromManifest none = ([], true) :=
  ⟨getArtifacts_eq_amended parsed, rfl⟩
